import Mathlib

/-!
Verification of the thread-aware load-balancing snapshot engine
(`source/common/upstream/thread_aware_lb_impl.cc`).

The C++ core is embedded shallowly:
- machine integers (`uint32_t` weights, `uint64_t` hashes) become `Nat`;
  no arithmetic in this code wraps (weights are percentages summing to at
  most 100, hashes are only reduced `% 100` or passed through opaquely);
- `std::shared_ptr`/`std::unique_ptr` fields that may be null become
  `Option`; dereferencing a null pointer is modelled as an explicit
  fault outcome;
- the pluggable per-priority load balancer (`createLoadBalancer`, a pure
  virtual) becomes a function-valued field; a built per-priority load
  balancer is a function from the 64-bit hash to an optional host;
- side effects visible to the claims (calls to `computeHashKey`,
  increments of the `lb_healthy_panic_` counter) are instrumented as
  counters in the result of `chooseHost`.
-/

namespace Envoy.Upstream

/-! ## Priority selection (`LoadBalancerBase::choosePriority`) -/

/-- Modelled from the spec: `LoadBalancerBase::choosePriority` is declared in
`load_balancer_impl.h` and called at `thread_aware_lb_impl.cc:62-64`, but its
definition is not part of this repository snapshot.  The spec (§4.3 step 2)
describes it as: treat the hash modulo 100 as a point in [0,100); scan the
weight sequence in order, accumulating, and return the first index whose
cumulative sum exceeds the point.  `firstCoveredAux point acc ws` performs one
such scan over `ws`, the accumulator having already reached `acc`. -/
def firstCoveredAux (point : Nat) : Nat → List Nat → Option Nat
  | _, [] => none
  | acc, w :: ws =>
    if point < acc + w then some 0
    else (firstCoveredAux point (acc + w) ws).map (· + 1)

/-- One scan pass starting from an empty accumulator. -/
def firstCovered (point : Nat) (ws : List Nat) : Option Nat :=
  firstCoveredAux point 0 ws

/-- Modelled from the spec: full two-pass priority selection (§4.3 step 2).
First pass over the healthy weights; if no healthy weight covers the point,
repeat the scan against the degraded weights; if neither covers it, fall back
to the last priority level. -/
def choosePriority (hash : Nat) (healthy degraded : List Nat) : Nat :=
  let point := hash % 100
  match firstCovered point healthy with
  | some i => i
  | none =>
    match firstCovered point degraded with
    | some i => i
    | none => healthy.length - 1

/-- Declarative form of one scan pass, written directly from the spec's words:
the first index whose cumulative weight sum (inclusive of that index) exceeds
the point. -/
def firstCoveredSpec (point : Nat) (ws : List Nat) : Option Nat :=
  (List.range ws.length).find? (fun i => decide (point < ((ws.take (i + 1)).sum)))

/-- Declarative form of the two-pass priority-selection rule. -/
def choosePrioritySpec (hash : Nat) (healthy degraded : List Nat) : Nat :=
  let point := hash % 100
  match firstCoveredSpec point healthy with
  | some i => i
  | none =>
    match firstCoveredSpec point degraded with
    | some i => i
    | none => healthy.length - 1


/-! ## Data model

The embedded state mirrors the C++ classes:
`ThreadAwareLoadBalancerBase` (control-path object owning the priority set,
the load tables, the panic flags and the shared factory),
`LoadBalancerFactoryImpl` (the shared cell holding the three published
fields), and `LoadBalancerImpl` (the per-worker selector created by
`LoadBalancerFactoryImpl::create`, capturing copies of the three fields). -/

/-- One entry of `priority_set_.hostSetsPerPriority()`: a host set annotated
with its priority.  Hosts are opaque; we model them as `Nat` identifiers. -/
structure HostSet where
  priority : Nat
  hosts : List Nat
deriving DecidableEq

/-- `ThreadAwareLoadBalancerBase::PerPriorityState`: the panic flag copied at
rebuild time plus the load balancer built for this priority by the pluggable
strategy.  The built load balancer is its `chooseHost(h)` function. -/
structure PerPriorityState where
  global_panic_ : Bool
  current_lb_ : Nat → Option Nat

/-- `LoadBalancerFactoryImpl`: the three published fields, each a possibly
null shared pointer (`none` before the first `refresh`). The per-priority
state vector holds possibly null `unique_ptr` entries (`Option`). -/
structure LoadBalancerFactoryImpl where
  healthy_per_priority_load_ : Option (List Nat)
  degraded_per_priority_load_ : Option (List Nat)
  per_priority_state_ : Option (List (Option PerPriorityState))

/-- A factory whose fields are all default-constructed null pointers, as on
construction of `ThreadAwareLoadBalancerBase` before any `refresh`. -/
def initialFactory : LoadBalancerFactoryImpl := ⟨none, none, none⟩

/-- `ThreadAwareLoadBalancerBase::LoadBalancerImpl`: the per-worker selector.
It captures copies of the factory's three fields at creation time
(`stats_`/`random_` are modelled as parameters of `chooseHost`). -/
structure LoadBalancerImpl where
  healthy_per_priority_load_ : Option (List Nat)
  degraded_per_priority_load_ : Option (List Nat)
  per_priority_state_ : Option (List (Option PerPriorityState))

/-- `ThreadAwareLoadBalancerBase`: priority set contents, current load
tables, per-priority panic flags, the pluggable `createLoadBalancer`
strategy (a pure virtual in C++) and the shared factory cell. -/
structure ThreadAwareLoadBalancerBase where
  hostSetsPerPriority : List HostSet
  healthy_per_priority_load_ : List Nat
  degraded_per_priority_load_ : List Nat
  per_priority_panic_ : List Bool
  createLoadBalancer : HostSet → Bool → (Nat → Option Nat)
  factory_ : LoadBalancerFactoryImpl

/-- The per-priority state vector built by the loop of
`ThreadAwareLoadBalancerBase::refresh` (lines 27-36): a vector sized to the
number of host sets, where each host set writes, at index `priority()`, a
fresh `PerPriorityState` carrying the panic flag
`per_priority_panic_[priority]` and the load balancer produced by
`createLoadBalancer(*host_set, panic)`. -/
def buildPerPriorityStateVector (lb : ThreadAwareLoadBalancerBase) :
    List (Option PerPriorityState) :=
  lb.hostSetsPerPriority.foldl
    (fun vec host_set =>
      let priority := host_set.priority
      let panic := lb.per_priority_panic_.getD priority false
      vec.set priority (some ⟨panic, lb.createLoadBalancer host_set panic⟩))
    (List.replicate lb.hostSetsPerPriority.length none)

/-- `ThreadAwareLoadBalancerBase::refresh` (lines 21-44): build the new
per-priority state vector and copies of both load tables, then publish all
three into the factory under the writer lock. Nothing else is written. -/
def refresh (lb : ThreadAwareLoadBalancerBase) : ThreadAwareLoadBalancerBase :=
  { lb with
    factory_ :=
      ⟨some lb.healthy_per_priority_load_,
       some lb.degraded_per_priority_load_,
       some (buildPerPriorityStateVector lb)⟩ }

/-- `LoadBalancerFactoryImpl::create` (lines 72-83): the new selector copies
the factory's three fields under the reader lock. -/
def create (f : LoadBalancerFactoryImpl) : LoadBalancerImpl :=
  ⟨f.healthy_per_priority_load_, f.degraded_per_priority_load_, f.per_priority_state_⟩

/-- The request context (`LoadBalancerContext`): its `computeHashKey()`
result, an optional 64-bit hash. -/
structure LoadBalancerContext where
  computeHashKey : Option Nat

/-- Result of one `chooseHost` call, instrumented with the side effects the
claims talk about: how many times `context->computeHashKey()` was invoked and
how many times `stats_.lb_healthy_panic_` was incremented. -/
structure ChooseResult where
  host : Option Nat
  hashKeyCalls : Nat
  lbHealthyPanicIncs : Nat
deriving DecidableEq

/-- Outcome of one `chooseHost` call.  The two fault constructors mark the
undefined behaviour the C++ would exhibit: dereferencing a null load-table
shared pointer (line 63) and dereferencing an absent per-priority state
entry (lines 65-69). -/
inductive ChooseOutcome where
  | ok (r : ChooseResult)
  | nullLoadDeref
  | missingPriorityEntry
deriving DecidableEq

/-- `ThreadAwareLoadBalancerBase::LoadBalancerImpl::chooseHost` (lines
46-70), with `random_.random()` passed in as `randomValue`.  Early-return
null when the captured state vector is null; otherwise call
`computeHashKey()` once iff a context was supplied, fall back to the random
value when no hash resulted, choose a priority with the same hash, increment
the panic counter iff that level's panic flag is set, and delegate to that
level's load balancer with the same hash. -/
def chooseHost (lb : LoadBalancerImpl) (context : Option LoadBalancerContext)
    (randomValue : Nat) : ChooseOutcome :=
  match lb.per_priority_state_ with
  | none => .ok ⟨none, 0, 0⟩
  | some per_priority_state_vec =>
    let hash : Option Nat :=
      match context with
      | some c => c.computeHashKey
      | none => none
    let hashKeyCalls : Nat :=
      match context with
      | some _ => 1
      | none => 0
    let h : Nat := hash.getD randomValue
    match lb.healthy_per_priority_load_, lb.degraded_per_priority_load_ with
    | some healthy, some degraded =>
      let priority := choosePriority h healthy degraded
      match per_priority_state_vec[priority]? with
      | some (some pps) =>
        .ok ⟨pps.current_lb_ h, hashKeyCalls, if pps.global_panic_ then 1 else 0⟩
      | _ => .missingPriorityEntry
    | _, _ => .nullLoadDeref

/-! ## Lemmas about the rebuild loop's vector writes

The loop body of `refresh` writes `vec.set hs.priority (some state)` for each
host set `hs`; the lemmas below describe the resulting vector. They are
stated for a generic state constructor `mkS`. -/

/-- The state written for one host set by the loop body of `refresh`. -/
def mkPerPriorityState (lb : ThreadAwareLoadBalancerBase) (hs : HostSet) :
    PerPriorityState :=
  let panic := lb.per_priority_panic_.getD hs.priority false
  ⟨panic, lb.createLoadBalancer hs panic⟩

/-! ## The surrounding world: factory plus already-created selectors

`refresh` writes only the factory's three fields (lines 38-43); it never
reaches into selectors handed out earlier, whose captured shared-pointer
copies keep the old generation alive. `createW`/`refreshW` record this at
the level of a world holding the control object and every selector created
so far. -/

structure World where
  base : ThreadAwareLoadBalancerBase
  selectors : List LoadBalancerImpl

/-- `LoadBalancerFactoryImpl::create` as observed by the world: the new
selector captures the factory's current fields and is handed to a worker. -/
def createW (w : World) : World × LoadBalancerImpl :=
  let sel := create w.base.factory_
  ({ w with selectors := w.selectors ++ [sel] }, sel)

/-- `refresh` as observed by the world: only the control object (its factory
cell) changes. -/
def refreshW (w : World) : World :=
  { w with base := refresh w.base }

/-! ## Reachable factory states

The factory's fields are written exactly once per `refresh`, all three
together (lines 38-43); before the first `refresh` all three are the
default-constructed null pointers. -/

inductive FactoryReachable : LoadBalancerFactoryImpl → Prop where
  | start : FactoryReachable initialFactory
  | ofRefresh (lb : ThreadAwareLoadBalancerBase) : FactoryReachable (refresh lb).factory_

/-! ## Fine-grained atomicity of the publish step

The writer-lock block of `refresh` (lines 38-43) performs three field
writes; `create` (lines 77-80) reads all three under the reader lock. To
state that readers never observe a mixed-generation triple we model the
factory cell with each field tagged by the generation (refresh invocation)
that wrote it, executions as sequences of individual field writes and
whole-cell reads, and the lock discipline as the requirement that the three
writes of one publish form a contiguous block with no read between them. -/

structure GenCell where
  healthyGen : Option Nat
  degradedGen : Option Nat
  statesGen : Option Nat
deriving DecidableEq

/-- Initial cell: all three fields null, written by no generation. -/
def initialGenCell : GenCell := ⟨none, none, none⟩

inductive FactoryEvent where
  | writeHealthy (g : Nat)
  | writeDegraded (g : Nat)
  | writeStates (g : Nat)
  | readAll
deriving DecidableEq

def applyEvent (c : GenCell) : FactoryEvent → GenCell
  | .writeHealthy g => { c with healthyGen := some g }
  | .writeDegraded g => { c with degradedGen := some g }
  | .writeStates g => { c with statesGen := some g }
  | .readAll => c

/-- The cells observed by the whole-cell reads of a trace, starting from
cell `c`. -/
def observations (c : GenCell) : List FactoryEvent → List GenCell
  | [] => []
  | e :: es =>
    match e with
    | .readAll => c :: observations c es
    | _ => observations (applyEvent c e) es

/-- All three fields of a cell were written by the same generation (or none
has been written yet). -/
def SameGeneration (c : GenCell) : Prop :=
  c.healthyGen = c.degradedGen ∧ c.degradedGen = c.statesGen

instance (c : GenCell) : Decidable (SameGeneration c) := by
  unfold SameGeneration
  infer_instance

/-- Traces permitted by the reader/writer lock: reads happen between
publishes, and each publish's three writes (healthy load, degraded load,
state vector — the program order of lines 40-42) form one uninterrupted
block. -/
inductive LockRespecting : List FactoryEvent → Prop where
  | nil : LockRespecting []
  | read {t : List FactoryEvent} :
      LockRespecting t → LockRespecting (FactoryEvent.readAll :: t)
  | publish {t : List FactoryEvent} (g : Nat) :
      LockRespecting t →
      LockRespecting (FactoryEvent.writeHealthy g :: FactoryEvent.writeDegraded g ::
        FactoryEvent.writeStates g :: t)

/-! ## Derived parts of the selection path -/

/-- The hash value one selection uses: the context's hash when the context
produced one, the freshly drawn random value otherwise. -/
def usedHash (context : Option LoadBalancerContext) (randomValue : Nat) : Nat :=
  (context.bind (fun c => c.computeHashKey)).getD randomValue

/-- How many times `chooseHost` invokes `context->computeHashKey()`: once
when a context is supplied, never otherwise. -/
def hashKeyCallCount (context : Option LoadBalancerContext) : Nat :=
  match context with
  | some _ => 1
  | none => 0

/-- The factory's three published fields are all null or all set. -/
def AllNoneOrAllSome (f : LoadBalancerFactoryImpl) : Prop :=
  (f.healthy_per_priority_load_ = none ∧ f.degraded_per_priority_load_ = none ∧
    f.per_priority_state_ = none)
  ∨ (∃ hl dl vec, f.healthy_per_priority_load_ = some hl ∧
      f.degraded_per_priority_load_ = some dl ∧ f.per_priority_state_ = some vec)

/-! ## Concrete witnesses -/

/-- A concrete two-priority control object used by witnesses: priorities 0
and 1 in order, healthy weights [30, 70], priority 0 in panic. -/
def exampleLB : ThreadAwareLoadBalancerBase where
  hostSetsPerPriority := [⟨0, [5, 6]⟩, ⟨1, [7]⟩]
  healthy_per_priority_load_ := [30, 70]
  degraded_per_priority_load_ := [0, 0]
  per_priority_panic_ := [true, false]
  createLoadBalancer := fun hs _ => fun h => hs.hosts[h % hs.hosts.length]?
  factory_ := initialFactory


/-! ## Theorems -/

theorem firstCoveredAux_eq_find (point : Nat) (ws : List Nat) :
    ∀ acc : Nat, firstCoveredAux point acc ws =
      (List.range ws.length).find? (fun i => decide (point < acc + (ws.take (i + 1)).sum)) := by
  induction ws with
  | nil => intro acc; simp [firstCoveredAux]
  | cons w ws ih =>
    intro acc
    rw [List.length_cons, List.range_succ_eq_map]
    rw [List.find?_cons]
    by_cases h : point < acc + w
    · simp [firstCoveredAux, h]
    · have hp : decide (point < acc + ((w :: ws).take (0 + 1)).sum) = false := by
        simp [h]
      rw [hp]
      rw [List.find?_map]
      simp only [firstCoveredAux, if_neg h]
      rw [ih (acc + w)]
      have hfun : ((fun i => decide (point < acc + ((w :: ws).take (i + 1)).sum)) ∘ Nat.succ)
          = fun i => decide (point < acc + w + (ws.take (i + 1)).sum) := by
        funext i
        simp [Function.comp, List.take_succ_cons, Nat.add_assoc]
      rw [hfun]

theorem firstCovered_eq_spec (point : Nat) (ws : List Nat) :
    firstCovered point ws = firstCoveredSpec point ws := by
  rw [firstCovered, firstCoveredAux_eq_find, firstCoveredSpec]
  have hfun : (fun i => decide (point < 0 + (ws.take (i + 1)).sum))
      = fun i => decide (point < (ws.take (i + 1)).sum) := by
    funext i
    simp
  rw [hfun]

theorem choosePriority_eq_spec (hash : Nat) (healthy degraded : List Nat) :
    choosePriority hash healthy degraded = choosePrioritySpec hash healthy degraded := by
  rw [choosePriority, choosePrioritySpec, firstCovered_eq_spec, firstCovered_eq_spec]

theorem firstCoveredAux_lt_length (point : Nat) (ws : List Nat) :
    ∀ acc i : Nat, firstCoveredAux point acc ws = some i → i < ws.length := by
  induction ws with
  | nil => intro acc i h; simp [firstCoveredAux] at h
  | cons w ws ih =>
    intro acc i h
    rw [firstCoveredAux] at h
    by_cases hc : point < acc + w
    · rw [if_pos hc] at h
      cases h
      simp
    · rw [if_neg hc] at h
      cases hrec : firstCoveredAux point (acc + w) ws with
      | none => rw [hrec] at h; simp at h
      | some j =>
        rw [hrec] at h
        simp only [Option.map_some'] at h
        cases h
        have := ih (acc + w) j hrec
        simp only [List.length_cons]
        omega

/-- The chosen priority is in range whenever both weight tables have the
number-of-priorities length and there is at least one priority level. -/
theorem choosePriority_lt (hash n : Nat) (healthy degraded : List Nat)
    (hh : healthy.length = n) (hd : degraded.length = n) (hn : 0 < n) :
    choosePriority hash healthy degraded < n := by
  rw [choosePriority]
  cases h1 : firstCovered (hash % 100) healthy with
  | some i =>
    simpa [hh] using firstCoveredAux_lt_length (hash % 100) healthy 0 i h1
  | none =>
    cases h2 : firstCovered (hash % 100) degraded with
    | some i =>
      simpa [hd] using firstCoveredAux_lt_length (hash % 100) degraded 0 i h2
    | none => simpa [hh] using Nat.sub_lt hn Nat.one_pos

theorem buildPerPriorityStateVector_eq (lb : ThreadAwareLoadBalancerBase) :
    buildPerPriorityStateVector lb =
      lb.hostSetsPerPriority.foldl
        (fun vec hs => vec.set hs.priority (some (mkPerPriorityState lb hs)))
        (List.replicate lb.hostSetsPerPriority.length none) := rfl

theorem foldl_set_length (mkS : HostSet → PerPriorityState) :
    ∀ (l : List HostSet) (v : List (Option PerPriorityState)),
      (l.foldl (fun vec hs => vec.set hs.priority (some (mkS hs))) v).length = v.length := by
  intro l
  induction l with
  | nil => intro v; rfl
  | cons hs l ih => intro v; rw [List.foldl_cons, ih, List.length_set]

theorem foldl_set_getElem?_frame (mkS : HostSet → PerPriorityState) :
    ∀ (l : List HostSet) (v : List (Option PerPriorityState)) (p : Nat),
      (∀ hs ∈ l, hs.priority ≠ p) →
      (l.foldl (fun vec hs => vec.set hs.priority (some (mkS hs))) v)[p]? = v[p]? := by
  intro l
  induction l with
  | nil => intro v p _; rfl
  | cons hs l ih =>
    intro v p hne
    rw [List.foldl_cons, ih _ p (fun hs' h => hne hs' (List.mem_cons_of_mem _ h))]
    exact List.getElem?_set_ne (hne hs (List.mem_cons_self hs l))

theorem foldl_set_some_preserved (mkS : HostSet → PerPriorityState) :
    ∀ (l : List HostSet) (v : List (Option PerPriorityState)) (p : Nat),
      (∃ s, v[p]? = some (some s)) →
      ∃ s', (l.foldl (fun vec hs => vec.set hs.priority (some (mkS hs))) v)[p]? =
        some (some s') := by
  intro l
  induction l with
  | nil => intro v p h; exact h
  | cons hs l ih =>
    intro v p h
    obtain ⟨s, hget⟩ := h
    rw [List.foldl_cons]
    by_cases hpr : hs.priority = p
    · refine ih _ p ⟨mkS hs, ?_⟩
      have hlt : p < v.length := (List.getElem?_eq_some.mp hget).1
      rw [hpr]
      exact List.getElem?_set_eq_of_lt _ hlt
    · refine ih _ p ⟨s, ?_⟩
      rw [List.getElem?_set_ne hpr, hget]

theorem foldl_set_mem_some (mkS : HostSet → PerPriorityState) :
    ∀ (l : List HostSet) (v : List (Option PerPriorityState)) (p : Nat),
      (∃ hs ∈ l, hs.priority = p) → p < v.length →
      ∃ s, (l.foldl (fun vec hs => vec.set hs.priority (some (mkS hs))) v)[p]? =
        some (some s) := by
  intro l
  induction l with
  | nil => intro v p h _; simp at h
  | cons hs l ih =>
    intro v p h hlt
    obtain ⟨hs', hmem, hpr⟩ := h
    rw [List.foldl_cons]
    rcases List.mem_cons.mp hmem with heq | htail
    · subst heq
      refine foldl_set_some_preserved mkS l _ p ⟨mkS hs', ?_⟩
      rw [hpr]
      exact List.getElem?_set_eq_of_lt _ hlt
    · exact ih _ p ⟨hs', htail, hpr⟩ (by rw [List.length_set]; exact hlt)

theorem foldl_set_ordered (mkS : HostSet → PerPriorityState) :
    ∀ (l : List HostSet) (k : Nat) (v : List (Option PerPriorityState)),
      (∀ (i : Nat) (hs : HostSet), l[i]? = some hs → hs.priority = k + i) →
      k + l.length ≤ v.length →
      ∀ (j : Nat) (hs : HostSet), l[j]? = some hs →
        (l.foldl (fun vec hs => vec.set hs.priority (some (mkS hs))) v)[k + j]? =
          some (some (mkS hs)) := by
  intro l
  induction l with
  | nil => intro k v _ _ j hs h; simp at h
  | cons hs0 l ih =>
    intro k v hord hlen j hs hj
    have hpr0 : hs0.priority = k := by
      have := hord 0 hs0 (by simp)
      simpa using this
    rw [List.foldl_cons, hpr0]
    cases j with
    | zero =>
      have hs_eq : hs = hs0 := by
        simpa using hj.symm
      subst hs_eq
      have hk : k < v.length := by
        simp only [List.length_cons] at hlen
        omega
      have hframe : ∀ hs' ∈ l, hs'.priority ≠ k := by
        intro hs' hmem
        obtain ⟨i, hi, hget⟩ := List.getElem_of_mem hmem
        have : l[i]? = some hs' := by rw [List.getElem?_eq_getElem hi, hget]
        have := hord (i + 1) hs' (by simpa using this)
        omega
      rw [Nat.add_zero, foldl_set_getElem?_frame mkS l _ k hframe]
      exact List.getElem?_set_eq_of_lt _ hk
    | succ j' =>
      have hj' : l[j']? = some hs := by simpa using hj
      have : (k + 1) + j' = k + (j' + 1) := by omega
      rw [← this]
      refine ih (k + 1) _ ?_ ?_ j' hs hj'
      · intro i hs' hget
        have := hord (i + 1) hs' (by simpa using hget)
        omega
      · rw [List.length_set]
        simp only [List.length_cons] at hlen
        omega


/-- Characterization of `chooseHost` once the captured fields are known to
be set: the same hash — the context's if produced, the random value
otherwise — feeds both the priority choice and the delegated per-priority
load balancer. -/
theorem chooseHost_eq (lb : LoadBalancerImpl) (context : Option LoadBalancerContext)
    (randomValue : Nat) (healthy degraded : List Nat)
    (vec : List (Option PerPriorityState))
    (hh : lb.healthy_per_priority_load_ = some healthy)
    (hd : lb.degraded_per_priority_load_ = some degraded)
    (hv : lb.per_priority_state_ = some vec) :
    chooseHost lb context randomValue =
      match vec[choosePriority (usedHash context randomValue) healthy degraded]? with
      | some (some pps) =>
          ChooseOutcome.ok ⟨pps.current_lb_ (usedHash context randomValue),
            hashKeyCallCount context, if pps.global_panic_ then 1 else 0⟩
      | _ => ChooseOutcome.missingPriorityEntry := by
  cases context <;>
    simp [chooseHost, hv, hh, hd, usedHash, hashKeyCallCount]

/-! ## Claims -/

/-- Claim C1: for every hash value and every load table, priority selection
picks exactly one priority by the two-pass rule: with the hash modulo 100 as
a point in [0,100), return the first index whose cumulative healthy weight
exceeds the point; failing that repeat the scan over the degraded weights;
failing both return the last priority.  In particular with healthy weights
[0,0] and degraded weights [100,0] every hash selects priority 0, and with a
single priority of total weight 40 every point in [40,100) still resolves to
that priority. -/
theorem claim_C1 :
    (∀ (hash : Nat) (healthy degraded : List Nat),
        choosePriority hash healthy degraded = choosePrioritySpec hash healthy degraded)
    ∧ (∀ hash : Nat, choosePriority hash [0, 0] [100, 0] = 0)
    ∧ (∀ hash : Nat, 40 ≤ hash % 100 → choosePriority hash [40] [0] = 0) := by
  refine ⟨choosePriority_eq_spec, ?_, ?_⟩
  · intro hash
    have h100 : hash % 100 < 100 := Nat.mod_lt _ (by omega)
    simp [choosePriority, firstCovered, firstCoveredAux, h100]
  · intro hash h40
    have hno : ¬ hash % 100 < 0 + 40 := by omega
    simp [choosePriority, firstCovered, firstCoveredAux, hno]

/-- Witness for C1 at hash 77 (point 77 lies in [40,100)). -/
theorem claim_C1_witness : choosePriority 77 [40] [0] = 0 :=
  claim_C1.2.2 77 (by decide)

/-- Claim C2: a selector created from the factory before any refresh has
been published (all captured fields null) returns "no host" for every input
context and random value, with no hash-key call, no panic increment, and no
fault. -/
theorem claim_C2 :
    ∀ (context : Option LoadBalancerContext) (randomValue : Nat),
      chooseHost (create initialFactory) context randomValue =
        ChooseOutcome.ok ⟨none, 0, 0⟩ := by
  intro context randomValue
  rfl

/-- Claim C3: under the reader/writer-lock discipline — each publish's three
field writes form one uninterrupted block — every whole-cell read observes a
factory cell whose three fields were written by one single rebuild
generation (or not at all), never a mix of two generations. -/
theorem claim_C3 :
    ∀ (t : List FactoryEvent) (c : GenCell),
      LockRespecting t → SameGeneration c →
      ∀ o ∈ observations c t, SameGeneration o := by
  intro t c hlock
  induction hlock generalizing c with
  | nil =>
    intro _ o ho
    simp [observations] at ho
  | read _ ih =>
    intro hc o ho
    simp only [observations] at ho
    rcases List.mem_cons.mp ho with rfl | htail
    · exact hc
    · exact ih c hc o htail
  | publish g _ ih =>
    intro _ o ho
    simp only [observations, applyEvent] at ho
    exact ih ⟨some g, some g, some g⟩ ⟨rfl, rfl⟩ o ho

/-- Witness for C3: the trace that publishes generation 1 and then reads
observes the all-generation-1 cell. -/
theorem claim_C3_witness : SameGeneration ⟨some 1, some 1, some 1⟩ :=
  claim_C3
    [FactoryEvent.writeHealthy 1, FactoryEvent.writeDegraded 1,
     FactoryEvent.writeStates 1, FactoryEvent.readAll]
    initialGenCell
    (LockRespecting.publish 1 (LockRespecting.read LockRespecting.nil))
    (by decide) ⟨some 1, some 1, some 1⟩ (by decide)

/-- Claim C4: for a fixed captured snapshot and a fixed supplied hash,
`chooseHost` is a pure function of (snapshot, load table, hash): the random
value does not influence the result when the context supplies a hash. -/
theorem claim_C4 (lb : LoadBalancerImpl) (c : LoadBalancerContext) (k : Nat)
    (h : c.computeHashKey = some k) (r1 r2 : Nat) :
    chooseHost lb (some c) r1 = chooseHost lb (some c) r2 := by
  simp [chooseHost, h]

/-- Witness for C4 at a concrete selector, context and random values. -/
theorem claim_C4_witness :
    chooseHost ⟨some [100], some [0], some [some ⟨false, fun h => some h⟩]⟩
        (some ⟨some 7⟩) 3 =
      chooseHost ⟨some [100], some [0], some [some ⟨false, fun h => some h⟩]⟩
        (some ⟨some 7⟩) 99 :=
  claim_C4 ⟨some [100], some [0], some [some ⟨false, fun h => some h⟩]⟩
    ⟨some 7⟩ 7 rfl 3 99

/-- Claim C5: a refresh published after a selector was created leaves that
selector's captured fields unchanged (the world's already-created selectors
are untouched — `refresh` writes only the factory cell), a selector created
at any time captures exactly the factory's current fields, and a selector
created after the refresh observes the newly built snapshot. -/
theorem claim_C5 (w : World) :
    (refreshW w).selectors = w.selectors
    ∧ (createW w).2 = create w.base.factory_
    ∧ (createW (refreshW w)).2 =
        ⟨some w.base.healthy_per_priority_load_,
         some w.base.degraded_per_priority_load_,
         some (buildPerPriorityStateVector w.base)⟩ :=
  ⟨rfl, rfl, rfl⟩

/-- Claim C6: refresh builds exactly one per-priority state per level, whose
panic flag is the externally supplied `per_priority_panic_[priority]` and
whose load balancer is produced by the pluggable strategy from that level's
host set and that flag; the snapshot published to the factory pairs those
levels with copies of both load tables taken in the same call; and refresh
mutates none of its inputs. -/
theorem claim_C6 (lb : ThreadAwareLoadBalancerBase)
    (hord : ∀ (i : Nat) (hs : HostSet),
        lb.hostSetsPerPriority[i]? = some hs → hs.priority = i)
    (_hpanic : lb.per_priority_panic_.length = lb.hostSetsPerPriority.length) :
    ((refresh lb).factory_ =
      ⟨some lb.healthy_per_priority_load_, some lb.degraded_per_priority_load_,
       some (buildPerPriorityStateVector lb)⟩)
    ∧ (buildPerPriorityStateVector lb).length = lb.hostSetsPerPriority.length
    ∧ (∀ (p : Nat) (hs : HostSet), lb.hostSetsPerPriority[p]? = some hs →
        (buildPerPriorityStateVector lb)[p]? =
          some (some ⟨lb.per_priority_panic_.getD p false,
            lb.createLoadBalancer hs (lb.per_priority_panic_.getD p false)⟩))
    ∧ (refresh lb).hostSetsPerPriority = lb.hostSetsPerPriority
    ∧ (refresh lb).healthy_per_priority_load_ = lb.healthy_per_priority_load_
    ∧ (refresh lb).degraded_per_priority_load_ = lb.degraded_per_priority_load_
    ∧ (refresh lb).per_priority_panic_ = lb.per_priority_panic_
    ∧ (refresh lb).createLoadBalancer = lb.createLoadBalancer := by
  refine ⟨rfl, ?_, ?_, rfl, rfl, rfl, rfl, rfl⟩
  · rw [buildPerPriorityStateVector_eq, foldl_set_length, List.length_replicate]
  · intro p hs hp
    have hmain := foldl_set_ordered (mkPerPriorityState lb) lb.hostSetsPerPriority 0
      (List.replicate lb.hostSetsPerPriority.length none)
      (fun i hs' h => by simpa using hord i hs' h)
      (by simp) p hs hp
    have hpr : hs.priority = p := hord p hs hp
    rw [buildPerPriorityStateVector_eq]
    simpa [mkPerPriorityState, hpr] using hmain

/-- Claim C7: with a published snapshot, `chooseHost` invokes
`computeHashKey` at most once and never without a context, uses the context's
hash when one is produced and the random value otherwise, feeds that single
hash to both the priority choice and the chosen level's delegated load
balancer, and returns the delegate's result (possibly "no host"). -/
theorem claim_C7 (lb : LoadBalancerImpl) (context : Option LoadBalancerContext)
    (randomValue : Nat) (healthy degraded : List Nat)
    (vec : List (Option PerPriorityState)) (pps : PerPriorityState)
    (hh : lb.healthy_per_priority_load_ = some healthy)
    (hd : lb.degraded_per_priority_load_ = some degraded)
    (hv : lb.per_priority_state_ = some vec)
    (hentry : vec[choosePriority (usedHash context randomValue) healthy degraded]? =
      some (some pps)) :
    chooseHost lb context randomValue =
      ChooseOutcome.ok ⟨pps.current_lb_ (usedHash context randomValue),
        hashKeyCallCount context, if pps.global_panic_ then 1 else 0⟩
    ∧ hashKeyCallCount context ≤ 1
    ∧ (context = none → hashKeyCallCount context = 0)
    ∧ (∀ (c : LoadBalancerContext) (k : Nat), context = some c →
        c.computeHashKey = some k → usedHash context randomValue = k)
    ∧ (context.bind (fun c => c.computeHashKey) = none →
        usedHash context randomValue = randomValue) := by
  refine ⟨?_, ?_, ?_, ?_, ?_⟩
  · rw [chooseHost_eq lb context randomValue healthy degraded vec hh hd hv, hentry]
  · cases context <;> simp [hashKeyCallCount]
  · intro hnone; rw [hnone]; rfl
  · intro c k hctx hk
    rw [hctx]
    simp [usedHash, hk]
  · intro hnone
    simp [usedHash, hnone]

/-- Claim C8: a selection that resolves to a priority level whose panic flag
is set increments the panic counter exactly once and still delegates to that
level's load balancer with the same hash; a selection resolving to a
non-panic level performs no panic increment. -/
theorem claim_C8 (lb : LoadBalancerImpl) (context : Option LoadBalancerContext)
    (randomValue : Nat) (healthy degraded : List Nat)
    (vec : List (Option PerPriorityState)) (pps : PerPriorityState)
    (hh : lb.healthy_per_priority_load_ = some healthy)
    (hd : lb.degraded_per_priority_load_ = some degraded)
    (hv : lb.per_priority_state_ = some vec)
    (hentry : vec[choosePriority (usedHash context randomValue) healthy degraded]? =
      some (some pps)) :
    (pps.global_panic_ = true →
      chooseHost lb context randomValue =
        ChooseOutcome.ok ⟨pps.current_lb_ (usedHash context randomValue),
          hashKeyCallCount context, 1⟩)
    ∧ (pps.global_panic_ = false →
      chooseHost lb context randomValue =
        ChooseOutcome.ok ⟨pps.current_lb_ (usedHash context randomValue),
          hashKeyCallCount context, 0⟩) := by
  constructor <;> intro hflag <;>
    rw [chooseHost_eq lb context randomValue healthy degraded vec hh hd hv, hentry] <;>
    simp [hflag]

/-- Claim C9: the factory's three published fields are always all absent or
all present (written together by one refresh), so the single null check on
the state vector at the top of `chooseHost` suffices: a selector created
from any reachable factory state never dereferences a null load table. -/
theorem claim_C9 (f : LoadBalancerFactoryImpl) (hf : FactoryReachable f) :
    AllNoneOrAllSome f
    ∧ ∀ (context : Option LoadBalancerContext) (randomValue : Nat),
        chooseHost (create f) context randomValue ≠ ChooseOutcome.nullLoadDeref := by
  cases hf with
  | start =>
    refine ⟨Or.inl ⟨rfl, rfl, rfl⟩, ?_⟩
    intro context randomValue
    simp [chooseHost, create, initialFactory]
  | ofRefresh lb =>
    refine ⟨Or.inr ⟨_, _, _, rfl, rfl, rfl⟩, ?_⟩
    intro context randomValue
    rw [chooseHost_eq _ context randomValue _ _ _ rfl rfl rfl]
    cases hvec : (buildPerPriorityStateVector lb)[choosePriority
        (usedHash context randomValue) lb.healthy_per_priority_load_
        lb.degraded_per_priority_load_]? with
    | none => simp
    | some o => cases o <;> simp

/-- Claim C10: when the host sets carry priorities exactly 0..n-1 (n the
number of host sets, each priority once) and the load tables have length n,
every entry of the freshly built state vector is populated, so a selector
capturing the refreshed snapshot never indexes an absent per-priority entry:
every selection completes with an ordinary result. -/
theorem claim_C10 (lb : ThreadAwareLoadBalancerBase)
    (hpos : 0 < lb.hostSetsPerPriority.length)
    (hcover : ∀ p < lb.hostSetsPerPriority.length,
        ∃ hs ∈ lb.hostSetsPerPriority, hs.priority = p)
    (_hnodup : (lb.hostSetsPerPriority.map HostSet.priority).Nodup)
    (hh : lb.healthy_per_priority_load_.length = lb.hostSetsPerPriority.length)
    (hd : lb.degraded_per_priority_load_.length = lb.hostSetsPerPriority.length) :
    (∀ p < lb.hostSetsPerPriority.length,
        ∃ s, (buildPerPriorityStateVector lb)[p]? = some (some s))
    ∧ ∀ (context : Option LoadBalancerContext) (randomValue : Nat),
        ∃ r, chooseHost (create (refresh lb).factory_) context randomValue =
          ChooseOutcome.ok r := by
  have hpop : ∀ p < lb.hostSetsPerPriority.length,
      ∃ s, (buildPerPriorityStateVector lb)[p]? = some (some s) := by
    intro p hp
    rw [buildPerPriorityStateVector_eq]
    exact foldl_set_mem_some (mkPerPriorityState lb) lb.hostSetsPerPriority _ p
      (hcover p hp) (by simpa using hp)
  refine ⟨hpop, ?_⟩
  intro context randomValue
  rw [chooseHost_eq _ context randomValue _ _ _ rfl rfl rfl]
  have hlt := choosePriority_lt (usedHash context randomValue) _
    lb.healthy_per_priority_load_ lb.degraded_per_priority_load_ hh hd hpos
  obtain ⟨s, hs⟩ := hpop _ hlt
  rw [hs]
  exact ⟨_, rfl⟩

/-- Witness for C6: the entry built for priority 0 of the example carries
its panic flag and the strategy-built load balancer. -/
theorem claim_C6_witness :
    (buildPerPriorityStateVector exampleLB)[0]? =
      some (some ⟨exampleLB.per_priority_panic_.getD 0 false,
        exampleLB.createLoadBalancer ⟨0, [5, 6]⟩
          (exampleLB.per_priority_panic_.getD 0 false)⟩) :=
  (claim_C6 exampleLB
    (by
      intro i hs h
      match i with
      | 0 => cases h; rfl
      | 1 => cases h; rfl
      | n + 2 => cases h)
    rfl).2.2.1 0 ⟨0, [5, 6]⟩ rfl

/-- Witness for C7 at a concrete selector: the context's hash 7 selects
priority 0 and the delegate answers with host 8. -/
theorem claim_C7_witness :
    chooseHost ⟨some [100], some [0], some [some ⟨false, fun h => some (h + 1)⟩]⟩
        (some ⟨some 7⟩) 3 =
      ChooseOutcome.ok ⟨some 8, 1, 0⟩ :=
  (claim_C7 ⟨some [100], some [0], some [some ⟨false, fun h => some (h + 1)⟩]⟩
    (some ⟨some 7⟩) 3 [100] [0] [some ⟨false, fun h => some (h + 1)⟩]
    ⟨false, fun h => some (h + 1)⟩ rfl rfl rfl rfl).1

/-- Witness for C8 at a concrete selector whose only priority is in panic:
one panic increment, delegate still consulted with the hash 9. -/
theorem claim_C8_witness :
    chooseHost ⟨some [100], some [0], some [some ⟨true, fun h => some (h * 2)⟩]⟩
        (some ⟨some 9⟩) 4 =
      ChooseOutcome.ok ⟨some 18, 1, 1⟩ :=
  (claim_C8 ⟨some [100], some [0], some [some ⟨true, fun h => some (h * 2)⟩]⟩
    (some ⟨some 9⟩) 4 [100] [0] [some ⟨true, fun h => some (h * 2)⟩]
    ⟨true, fun h => some (h * 2)⟩ rfl rfl rfl rfl).1 rfl

/-- Witness for C9 at the initial factory. -/
theorem claim_C9_witness :
    chooseHost (create initialFactory) none 0 ≠ ChooseOutcome.nullLoadDeref :=
  (claim_C9 initialFactory FactoryReachable.start).2 none 0

/-- Witness for C10 on the example control object. -/
theorem claim_C10_witness :
    ∃ r, chooseHost (create (refresh exampleLB).factory_) none 42 =
      ChooseOutcome.ok r :=
  (claim_C10 exampleLB (by decide)
    (by
      intro p hp
      match p with
      | 0 => exact ⟨⟨0, [5, 6]⟩, by simp [exampleLB], rfl⟩
      | 1 => exact ⟨⟨1, [7]⟩, by simp [exampleLB], rfl⟩
      | n + 2 => exact absurd hp (by simp [exampleLB]))
    (by decide) rfl rfl).2 none 42

end Envoy.Upstream
